import Mathlib

/-!
Verification of the free-game announcement bot (`src/main.py`).

The development shallow-embeds the pure core of the program:

* `Entry` models one raw JSON item of the `specials.items` collection
  returned by the featured-categories endpoint; every field is optional,
  matching Python's `dict.get` returning `None` for absent keys.
* `Game` models the offer-record dict built in `get_featured_free_games`
  (lines 60-67).  The `discount_end` field is typed `Option Nat` because
  the data model declares it nullable; the code's expression
  `game.get('discount_expiration', 0)` always stores a number, which the
  embedding records as `some _`.
* `get_featured_free_games` embeds lines 51-72 over an explicit `Response`
  datatype covering transport errors, HTTP statuses and parse failures
  (the `try/except` makes the Python function total, so the embedding is a
  total function into `List Game`).
* `unique_games` / `get_all_free_games` embed the dedup loop of
  lines 110-121.
* `current_games`, `new_games` and `cycle_end_snapshot` embed the delta
  computation and snapshot replacement of `check_free_games`
  (lines 161-162 and 188-189); Python's mutable global string set becomes
  an explicit `Finset String` threaded through the cycle.
* `notify_games` embeds the per-offer send loop of lines 167-186, with the
  send side effect abstracted as `send : Game → Except Unit Unit`; the
  `except` clause catches any failure and the loop continues, so the
  embedding recurses on the tail in both branches.
* `embed_field_names` embeds which labeled fields the notification embed
  receives (lines 177-182), in particular the truthiness test
  `if game.get('discount_end'):` on line 178.
-/

/-- Python string interpolation of a possibly-absent string value:
`f-string` renders `None` as the text `"None"`. -/
def pyStr : Option String → String
  | none => "None"
  | some s => s

/-- Python string interpolation of a possibly-absent integer value. -/
def pyStrNat : Option Nat → String
  | none => "None"
  | some n => toString n

/-- Python truthiness of an int-or-None value: `None` and `0` are falsy. -/
def pyTruthyNat : Option Nat → Bool
  | none => false
  | some 0 => false
  | some (_ + 1) => true

/-- One raw item of the `specials.items` JSON collection.  Each field is
read with `dict.get`, hence optional. -/
structure Entry where
  name : Option String
  large_capsule_image : Option String
  id : Option Nat
  discount_percent : Option Int
  original_price : Option Nat
  discount_expiration : Option Nat
deriving DecidableEq

/-- The offer-record dict built at lines 60-67 of `main.py`. -/
structure Game where
  name : Option String
  image_url : Option String
  status : String
  store_url : String
  original_price : ℚ
  discount_end : Option Nat
deriving DecidableEq

/-- `self.store_url` of the `SteamAPI` class. -/
def store_url_base : String := "https://store.steampowered.com"

/-- Line 65: `game.get('original_price', 0) / 100 if game.get('original_price') else 0`.
An absent or zero (falsy) raw price yields `0`; otherwise the raw
minor-unit price is divided by 100 (modelled exactly in `ℚ`). -/
def priceOf : Option Nat → ℚ
  | none => 0
  | some p => if p = 0 then 0 else (p : ℚ) / 100

/-- Lines 60-67: build one offer record from a kept entry. -/
def mkGame (g : Entry) : Game :=
  { name := g.name
    image_url := g.large_capsule_image
    status := "Free to Keep!"
    store_url := store_url_base ++ "/app/" ++ pyStrNat g.id
    original_price := priceOf g.original_price
    discount_end := some (g.discount_expiration.getD 0) }

/-- Lines 57-67: the loop over `specials`, keeping exactly the entries
with `game.get('discount_percent') == 100` and building a record for
each, in order. -/
def build_free_games : List Entry → List Game
  | [] => []
  | g :: specials =>
    if g.discount_percent = some 100 then mkGame g :: build_free_games specials
    else build_free_games specials

/-- The parsed body of the featured-categories response.  `parseError`
models `response.json()` raising (caught by the `except` clause);
`parsed items` models the value of `data.get('specials', {}).get('items', [])`
(absent keys yield `parsed []`). -/
inductive JsonBody where
  | parseError : JsonBody
  | parsed (items : List Entry) : JsonBody
deriving DecidableEq

/-- The outcome of the HTTP request in `get_featured_free_games`.
`netError` models the request itself raising (transport error, caught by
the `except` clause); `httpDone status body` models a completed response
with the given status code. -/
inductive Response where
  | netError : Response
  | httpDone (status : Nat) (body : JsonBody) : Response
deriving DecidableEq

/-- Lines 46-72 of `main.py`: on transport error, non-200 status, or a
parse failure, the accumulated `free_games` list is still `[]` and is
returned; on a 200 response the specials items are filtered and built. -/
def get_featured_free_games : Response → List Game
  | .netError => []
  | .httpDone status body =>
    if status = 200 then
      match body with
      | .parseError => []
      | .parsed items => build_free_games items
    else []

/-- Lines 110-115: the dedup loop, with the mutable `seen` set made an
explicit parameter.  Key comparison is on the raw `name` value
(`game['name'] not in seen`). -/
def unique_games_aux (seen : Finset (Option String)) : List Game → List Game
  | [] => []
  | g :: rest =>
    if g.name ∈ seen then unique_games_aux seen rest
    else g :: unique_games_aux (insert g.name seen) rest

/-- The dedup of `get_all_free_games` starting from `seen = set()`. -/
def unique_games (l : List Game) : List Game := unique_games_aux ∅ l

/-- Lines 100-121: merge the featured source (the secondary specials
source is inert and contributes nothing), dedup by name, and return.
The result is wrapped in `Option` to model Python's ability to return
`None`: the single `return` statement always returns a list, hence
`some`. -/
def get_all_free_games (featured_games : List Game) : Option (List Game) :=
  let free_games : List Game := []
  let free_games := if featured_games.isEmpty then free_games
                    else free_games ++ featured_games
  some (unique_games free_games)

/-- Line 147: the `if games is None:` guard of `check_free_games`. -/
def games_is_none (games : Option (List Game)) : Bool := games.isNone

/-- Line 161: the identity key `f"{game['name']} - {game['status']}"`. -/
def identityKey (g : Game) : String := pyStr g.name ++ " - " ++ g.status

/-- Line 161: `current_games = {f"..." for game in games}`. -/
def current_games (games : List Game) : Finset String :=
  (games.map identityKey).toFinset

/-- Line 162: `new_games = [game for game in games if f"..." not in previous_games]`. -/
def new_games (games : List Game) (previous_games : Finset String) : List Game :=
  games.filter (fun g => decide (identityKey g ∉ previous_games))

/-- Line 188: `previous_games.clear()`. -/
def set_clear (_previous : Finset String) : Finset String := ∅

/-- Line 189: `previous_games.update(current_games)`. -/
def set_update (s t : Finset String) : Finset String := s ∪ t

/-- Lines 188-189: the snapshot held after a completed cycle, as a
function of the snapshot before the cycle and the cycle's fetch result. -/
def cycle_end_snapshot (previous_games : Finset String) (games : List Game) :
    Finset String :=
  set_update (set_clear previous_games) (current_games games)

/-- Lines 167-186: the notification loop.  `send` abstracts the
side-effecting embed construction and `channel.send`; a `.error` result
models the `try` body raising.  The `except` clause catches and logs, so
the loop always continues with the remaining records.  The result pairs
each processed record with whether its send succeeded. -/
def notify_games (send : Game → Except Unit Unit) : List Game → List (Game × Bool)
  | [] => []
  | g :: rest =>
    match send g with
    | .ok _ => (g, true) :: notify_games send rest
    | .error _ => (g, false) :: notify_games send rest

/-- Lines 177-182: the labeled fields added to the notification embed.
The `Offer Ends` field is added only when `game.get('discount_end')` is
truthy; the `Store Page` field is always added. -/
def embed_field_names (g : Game) : List String :=
  (if pyTruthyNat g.discount_end then ["Offer Ends"] else []) ++ ["Store Page"]

/-! Demonstration records used by witness instantiations, mirroring the
examples of the specification (two offers A and B sharing status). -/

/-- Demo offer A. -/
def gameA : Game :=
  { name := some "A", image_url := none, status := "Free",
    store_url := "", original_price := 0, discount_end := none }

/-- Demo offer B. -/
def gameB : Game :=
  { name := some "B", image_url := none, status := "Free",
    store_url := "", original_price := 0, discount_end := none }

/-- Demo offer C. -/
def gameC : Game :=
  { name := some "C", image_url := none, status := "Free",
    store_url := "", original_price := 0, discount_end := none }

/-- Claim C1: the `added` set of a cycle is exactly the subsequence of
`latest` (stable order) whose identity key `name - status` does not
belong to the previous snapshot; with an empty previous snapshot it is
all of `latest`. -/
theorem new_games_delta_correct (games : List Game) (previous : Finset String) :
    (new_games games previous).Sublist games ∧
    (∀ g, g ∈ new_games games previous ↔
      g ∈ games ∧ identityKey g ∉ previous) ∧
    new_games games ∅ = games := by
  refine ⟨List.filter_sublist games, fun g => ?_, ?_⟩
  · simp [new_games]
  · simp [new_games]

/-- Witness for C1, at the specification's example: `latest = [A, B]`,
`previous` holding A's key. -/
theorem new_games_delta_correct_witness :
    (new_games [gameA, gameB] {identityKey gameA}).Sublist [gameA, gameB] ∧
    (∀ g, g ∈ new_games [gameA, gameB] {identityKey gameA} ↔
      g ∈ [gameA, gameB] ∧ identityKey g ∉ ({identityKey gameA} : Finset String)) ∧
    new_games [gameA, gameB] ∅ = [gameA, gameB] :=
  new_games_delta_correct [gameA, gameB] {identityKey gameA}

/-- Claim C2: after a completed cycle the stored snapshot (clear then
update) equals exactly the identity-key set of that cycle's fetch result,
whatever the snapshot held before; an empty fetch leaves it empty. -/
theorem snapshot_is_pure_function_of_fetch
    (previous : Finset String) (games : List Game) :
    cycle_end_snapshot previous games = current_games games ∧
    cycle_end_snapshot previous [] = ∅ := by
  constructor
  · simp [cycle_end_snapshot, set_update, set_clear]
  · simp [cycle_end_snapshot, set_update, set_clear, current_games]

/-- Witness for C2 at a concrete non-empty prior snapshot. -/
theorem snapshot_is_pure_function_of_fetch_witness :
    cycle_end_snapshot {identityKey gameA} [gameB] = current_games [gameB] ∧
    cycle_end_snapshot {identityKey gameA} [] = ∅ :=
  snapshot_is_pure_function_of_fetch {identityKey gameA} [gameB]

/-- Claim C7: a second run of the delta computation with the same fetch
result, fed the first run's snapshot, adds nothing. -/
theorem noop_cycle_adds_nothing
    (previous : Finset String) (games : List Game) :
    new_games games (cycle_end_snapshot previous games) = [] := by
  simp only [cycle_end_snapshot, set_update, set_clear, Finset.empty_union,
    new_games, List.filter_eq_nil_iff, decide_eq_true_eq, not_not]
  intro g hg
  simp only [current_games, List.mem_toFinset]
  exact List.mem_map_of_mem identityKey hg

/-- Witness for C7 at the specification's example inputs. -/
theorem noop_cycle_adds_nothing_witness :
    new_games [gameA, gameB] (cycle_end_snapshot ∅ [gameA, gameB]) = [] :=
  noop_cycle_adds_nothing ∅ [gameA, gameB]

/-! Auxiliary lemmas about the dedup loop, generalised over the `seen`
accumulator. -/

/-- The dedup loop returns a subsequence of its input. -/
theorem unique_games_aux_sublist (l : List Game) :
    ∀ seen, (unique_games_aux seen l).Sublist l := by
  induction l with
  | nil => intro seen; simp [unique_games_aux]
  | cons g rest ih =>
    intro seen
    by_cases h : g.name ∈ seen
    · simp only [unique_games_aux, if_pos h]
      exact (ih seen).cons g
    · simp only [unique_games_aux, if_neg h]
      exact (ih (insert g.name seen)).cons₂ g

/-- Every output record of the dedup loop comes from the input and its
name was not in the accumulator when the loop started. -/
theorem unique_games_aux_mem (l : List Game) :
    ∀ seen g, g ∈ unique_games_aux seen l → g ∈ l ∧ g.name ∉ seen := by
  induction l with
  | nil => intro seen g h; simp [unique_games_aux] at h
  | cons a rest ih =>
    intro seen g h
    by_cases ha : a.name ∈ seen
    · simp only [unique_games_aux, if_pos ha] at h
      obtain ⟨h1, h2⟩ := ih seen g h
      exact ⟨List.mem_cons_of_mem a h1, h2⟩
    · simp only [unique_games_aux, if_neg ha] at h
      rcases List.mem_cons.mp h with rfl | h
      · exact ⟨List.mem_cons_self g rest, ha⟩
      · obtain ⟨h1, h2⟩ := ih (insert a.name seen) g h
        exact ⟨List.mem_cons_of_mem a h1,
          fun hs => h2 (Finset.mem_insert_of_mem hs)⟩

/-- Output names of the dedup loop are pairwise distinct. -/
theorem unique_games_aux_nodup (l : List Game) :
    ∀ seen, ((unique_games_aux seen l).map (fun g => g.name)).Nodup := by
  induction l with
  | nil => intro seen; simp [unique_games_aux]
  | cons a rest ih =>
    intro seen
    by_cases ha : a.name ∈ seen
    · simpa only [unique_games_aux, if_pos ha] using ih seen
    · simp only [unique_games_aux, if_neg ha, List.map_cons, List.nodup_cons]
      refine ⟨fun hmem => ?_, ih (insert a.name seen)⟩
      obtain ⟨g, hg, hname⟩ := List.mem_map.mp hmem
      have := (unique_games_aux_mem rest (insert a.name seen) g hg).2
      exact this (hname ▸ Finset.mem_insert_self a.name seen)

/-- Each output record of the dedup loop is the first record of the input
bearing its name. -/
theorem unique_games_aux_first (l : List Game) :
    ∀ seen g, g ∈ unique_games_aux seen l →
      l.find? (fun x => decide (x.name = g.name)) = some g := by
  induction l with
  | nil => intro seen g h; simp [unique_games_aux] at h
  | cons a rest ih =>
    intro seen g h
    by_cases ha : a.name ∈ seen
    · simp only [unique_games_aux, if_pos ha] at h
      have hg := (unique_games_aux_mem rest seen g h).2
      have hne : ¬ (a.name = g.name) := fun he => hg (he ▸ ha)
      rw [List.find?_cons_of_neg _ (by simpa using hne)]
      exact ih seen g h
    · simp only [unique_games_aux, if_neg ha] at h
      rcases List.mem_cons.mp h with rfl | h
      · exact List.find?_cons_of_pos _ (by simp)
      · have hg := (unique_games_aux_mem rest (insert a.name seen) g h).2
        have hne : ¬ (a.name = g.name) :=
          fun he => hg (he ▸ Finset.mem_insert_self a.name seen)
        rw [List.find?_cons_of_neg _ (by simpa using hne)]
        exact ih (insert a.name seen) g h

/-- Every input record whose name is not yet in the accumulator has a
representative of the same name in the dedup output. -/
theorem unique_games_aux_cover (l : List Game) :
    ∀ seen g, g ∈ l → g.name ∉ seen →
      ∃ g2, g2 ∈ unique_games_aux seen l ∧ g2.name = g.name := by
  induction l with
  | nil => intro seen g h; simp at h
  | cons a rest ih =>
    intro seen g hmem hseen
    by_cases ha : a.name ∈ seen
    · simp only [unique_games_aux, if_pos ha]
      rcases List.mem_cons.mp hmem with rfl | h
      · exact absurd ha hseen
      · exact ih seen g h hseen
    · simp only [unique_games_aux, if_neg ha]
      rcases List.mem_cons.mp hmem with rfl | h
      · exact ⟨g, List.mem_cons_self _ _, rfl⟩
      · by_cases hname : g.name = a.name
        · exact ⟨a, List.mem_cons_self _ _, hname.symm⟩
        · obtain ⟨g2, hg2, he⟩ := ih (insert a.name seen) g h
            (by simp [Finset.mem_insert, hname, hseen])
          exact ⟨g2, List.mem_cons_of_mem a hg2, he⟩

/-- Claim C4: the merged fetch result is deduplicated by `name`: the
output is a subsequence of the input, has pairwise-distinct names, keeps
for each name the first-encountered record, covers every input name, and
its length is the number of distinct names (input length minus duplicate
occurrences beyond each first). -/
theorem unique_games_dedup_correct (l : List Game) :
    (unique_games l).Sublist l ∧
    ((unique_games l).map (fun g => g.name)).Nodup ∧
    (∀ g2, g2 ∈ unique_games l →
      l.find? (fun x => decide (x.name = g2.name)) = some g2) ∧
    (∀ g, g ∈ l → ∃ g2, g2 ∈ unique_games l ∧ g2.name = g.name) ∧
    (unique_games l).length = ((l.map (fun g => g.name)).toFinset).card := by
  have hsub : (unique_games l).Sublist l := unique_games_aux_sublist l ∅
  have hnd := unique_games_aux_nodup l ∅
  have hcover : ∀ g ∈ l, ∃ g2, g2 ∈ unique_games l ∧ g2.name = g.name :=
    fun g hg => unique_games_aux_cover l ∅ g hg (Finset.not_mem_empty _)
  refine ⟨hsub, hnd, fun g2 hg => unique_games_aux_first l ∅ g2 hg, hcover, ?_⟩
  have hset : ((unique_games l).map (fun g => g.name)).toFinset
      = (l.map (fun g => g.name)).toFinset := by
    ext n
    simp only [List.mem_toFinset, List.mem_map]
    constructor
    · rintro ⟨g, hg, rfl⟩
      exact ⟨g, hsub.subset hg, rfl⟩
    · rintro ⟨g, hg, rfl⟩
      obtain ⟨g2, hg2, he⟩ := hcover g hg
      exact ⟨g2, hg2, he⟩
  calc (unique_games l).length
      = ((unique_games l).map (fun g => g.name)).length :=
        (List.length_map _ _).symm
    _ = ((unique_games l).map (fun g => g.name)).toFinset.card :=
        (List.toFinset_card_of_nodup hnd).symm
    _ = ((l.map (fun g => g.name)).toFinset).card := by rw [hset]

/-- Witness for C4 on a batch of three records of which two share the
name A. -/
theorem unique_games_dedup_correct_witness :
    (unique_games [gameA, gameB, gameA]).Sublist [gameA, gameB, gameA] ∧
    ((unique_games [gameA, gameB, gameA]).map (fun g => g.name)).Nodup ∧
    (∀ g2, g2 ∈ unique_games [gameA, gameB, gameA] →
      ([gameA, gameB, gameA]).find? (fun x => decide (x.name = g2.name)) = some g2) ∧
    (∀ g, g ∈ [gameA, gameB, gameA] →
      ∃ g2, g2 ∈ unique_games [gameA, gameB, gameA] ∧ g2.name = g.name) ∧
    (unique_games [gameA, gameB, gameA]).length =
      (([gameA, gameB, gameA].map (fun g => g.name)).toFinset).card :=
  unique_games_dedup_correct [gameA, gameB, gameA]

/-- Claim C10: `get_all_free_games` always returns a list and never
`None`, so the `if games is None` abort branch of the cycle is
unreachable. -/
theorem get_all_free_games_never_none (featured_games : List Game) :
    games_is_none (get_all_free_games featured_games) = false ∧
    ∃ gs, get_all_free_games featured_games = some gs :=
  ⟨rfl, ⟨_, rfl⟩⟩

/-- Witness for C10 at a concrete fetch result. -/
theorem get_all_free_games_never_none_witness :
    games_is_none (get_all_free_games [gameA]) = false ∧
    ∃ gs, get_all_free_games [gameA] = some gs :=
  get_all_free_games_never_none [gameA]

/-- Demo raw entry with every field present (price 1999 minor units). -/
def entryFull : Entry :=
  { name := some "A", large_capsule_image := some "img", id := some 10,
    discount_percent := some 100, original_price := some 1999,
    discount_expiration := some 1700000000 }

/-- Demo raw entry at 99 percent discount. -/
def entry99 : Entry :=
  { name := some "B", large_capsule_image := some "img", id := some 11,
    discount_percent := some 99, original_price := some 1999,
    discount_expiration := some 1700000000 }

/-- Demo raw entry kept by the filter but with image, price and expiry
fields absent. -/
def entryBare : Entry :=
  { name := some "C", large_capsule_image := none, id := some 12,
    discount_percent := some 100, original_price := none,
    discount_expiration := none }

/-- Claim C3: an offer record is produced for an entry exactly when its
discount percentage equals 100; any other value, or an absent field,
excludes the entry. -/
theorem free_filter_exactly_100 :
    (∀ l, build_free_games l =
      (l.filter (fun e => decide (e.discount_percent = some 100))).map mkGame) ∧
    (∀ e : Entry, e.discount_percent ≠ some 100 → build_free_games [e] = []) ∧
    (∀ e : Entry, e.discount_percent = some 100 →
      build_free_games [e] = [mkGame e]) := by
  refine ⟨?_, ?_, ?_⟩
  · intro l
    induction l with
    | nil => rfl
    | cons e rest ih =>
      by_cases h : e.discount_percent = some 100 <;>
        simp [build_free_games, List.filter_cons, h, ih]
  · intro e h
    simp [build_free_games, h]
  · intro e h
    simp [build_free_games, h]

/-- Witness for C3: a 99-percent entry yields nothing, a 100-percent
entry yields its record, and an entry with the field absent yields
nothing. -/
theorem free_filter_exactly_100_witness :
    build_free_games [entry99] = [] ∧
    build_free_games [entryFull] = [mkGame entryFull] ∧
    build_free_games [{ entryFull with discount_percent := none }] = [] :=
  ⟨free_filter_exactly_100.2.1 entry99 (by decide),
   free_filter_exactly_100.2.2 entryFull rfl,
   free_filter_exactly_100.2.1 { entryFull with discount_percent := none }
     (by decide)⟩

/-- Claim C5: for a kept entry, `originalPrice` is the raw minor-unit
price divided by 100, is 0 when the raw field is absent, and is always
non-negative. -/
theorem original_price_normalized (e : Entry)
    ( _hkept : e.discount_percent = some 100) :
    (e.original_price = none → (mkGame e).original_price = 0) ∧
    (∀ p, e.original_price = some p →
      (mkGame e).original_price = (p : ℚ) / 100) ∧
    0 ≤ (mkGame e).original_price := by
  refine ⟨?_, ?_, ?_⟩
  · intro h
    simp [mkGame, priceOf, h]
  · intro p h
    simp only [mkGame, h, priceOf]
    by_cases hp : p = 0
    · simp [hp]
    · simp [hp]
  · simp only [mkGame]
    cases h : e.original_price with
    | none => simp [priceOf]
    | some p =>
      simp only [priceOf]
      by_cases hp : p = 0
      · simp [hp]
      · simp only [if_neg hp]
        positivity

/-- Witness for C5 at the raw price 1999 (and its value 19.99). -/
theorem original_price_normalized_witness :
    entryFull.discount_percent = some 100 ∧
    ((entryFull.original_price = none → (mkGame entryFull).original_price = 0) ∧
     (∀ p, entryFull.original_price = some p →
       (mkGame entryFull).original_price = (p : ℚ) / 100) ∧
     0 ≤ (mkGame entryFull).original_price) ∧
    (mkGame entryFull).original_price = 1999 / 100 :=
  ⟨rfl, original_price_normalized entryFull rfl,
   (original_price_normalized entryFull rfl).2.1 1999 rfl⟩

/-- Claim C6: the fetch is total and every failure mode — transport
error, non-200 status, unparseable body — yields the empty list rather
than an error. -/
theorem fetch_failures_yield_empty :
    get_featured_free_games Response.netError = [] ∧
    (∀ status body, status ≠ 200 →
      get_featured_free_games (Response.httpDone status body) = []) ∧
    (∀ status,
      get_featured_free_games (Response.httpDone status JsonBody.parseError)
        = []) := by
  refine ⟨rfl, ?_, ?_⟩
  · intro status body h
    simp [get_featured_free_games, h]
  · intro status
    by_cases h : status = 200 <;> simp [get_featured_free_games, h]

/-- Witness for C6 at a 404 response and at a 200 response whose body
fails to parse. -/
theorem fetch_failures_yield_empty_witness :
    get_featured_free_games (Response.httpDone 404 (JsonBody.parsed [entryFull]))
      = [] ∧
    get_featured_free_games (Response.httpDone 200 JsonBody.parseError) = [] :=
  ⟨fetch_failures_yield_empty.2.1 404 (JsonBody.parsed [entryFull]) (by decide),
   fetch_failures_yield_empty.2.2 200⟩

/-- Counterexample for claim C8: `entryBare` is kept (discount 100) and
its `discount_expiration` field is absent, yet the built record's
`discount_end` is the number 0 — `game.get('discount_expiration', 0)`
stores a numeric default, not a null/absent value. -/
theorem discount_end_defaults_to_zero_not_null :
    entryBare.discount_percent = some 100 ∧
    entryBare.discount_expiration = none ∧
    (mkGame entryBare).discount_end = some 0 ∧
    (mkGame entryBare).discount_end ≠ none :=
  ⟨rfl, rfl, rfl, by decide⟩

/-- Claim C8 (amended): for a kept entry, an absent image field yields a
null `image_url`; an absent discount-end field yields the numeric
default 0 for `discount_end`, which message formatting treats as absent
— the expiry field is omitted from the rendered embed — and formatting
is total, so such records never crash it. -/
theorem missing_field_defaults (e : Entry)
    ( _hkept : e.discount_percent = some 100)
    (himg : e.large_capsule_image = none)
    (hexp : e.discount_expiration = none) :
    (mkGame e).image_url = none ∧
    (mkGame e).discount_end = some 0 ∧
    embed_field_names (mkGame e) = ["Store Page"] := by
  refine ⟨by simp [mkGame, himg], by simp [mkGame, hexp], ?_⟩
  simp [embed_field_names, mkGame, hexp, pyTruthyNat]

/-- Witness for the amended C8 at the concrete bare entry. -/
theorem missing_field_defaults_witness :
    entryBare.discount_percent = some 100 ∧
    ((mkGame entryBare).image_url = none ∧
     (mkGame entryBare).discount_end = some 0 ∧
     embed_field_names (mkGame entryBare) = ["Store Page"]) :=
  ⟨rfl, missing_field_defaults entryBare rfl rfl rfl⟩

/-- Whether the abstracted send succeeds for a record. -/
def send_ok (send : Game → Except Unit Unit) (g : Game) : Bool :=
  match send g with
  | .ok _ => true
  | .error _ => false

/-- Unfolding of the notification loop on a cons cell: the head record
is always processed (with its success flag) and the loop continues. -/
theorem notify_games_cons (send : Game → Except Unit Unit) (g : Game)
    (rest : List Game) :
    notify_games send (g :: rest)
      = (g, send_ok send g) :: notify_games send rest := by
  cases h : send g <;> simp [notify_games, send_ok, h]

/-- Every record of the batch is processed and recorded with its own
success flag, whatever happened to the other records. -/
theorem notify_games_processes (send : Game → Except Unit Unit)
    (g : Game) (l : List Game) (hg : g ∈ l) :
    (g, send_ok send g) ∈ notify_games send l := by
  induction l with
  | nil => cases hg
  | cons a rest ih =>
    rw [notify_games_cons]
    rcases List.mem_cons.mp hg with rfl | h
    · exact List.mem_cons_self _ _
    · exact List.mem_cons_of_mem _ (ih h)

/-- The notification loop processes the whole batch in order. -/
theorem notify_games_map_fst (send : Game → Except Unit Unit)
    (l : List Game) :
    (notify_games send l).map Prod.fst = l := by
  induction l with
  | nil => rfl
  | cons g rest ih => rw [notify_games_cons]; simp [ih]

/-- Claim C9: a failing send for record `b` is caught: the whole batch
around `b` is still processed in order, `b` is recorded as failed, and
every record after `b` whose send succeeds is recorded as sent. -/
theorem send_failure_isolated (send : Game → Except Unit Unit)
    (pre post : List Game) (b : Game)
    (hfail : send b = Except.error ()) :
    (notify_games send (pre ++ b :: post)).map Prod.fst = pre ++ b :: post ∧
    (b, false) ∈ notify_games send (pre ++ b :: post) ∧
    ∀ g, g ∈ post → send g = Except.ok () →
      (g, true) ∈ notify_games send (pre ++ b :: post) := by
  have hb : send_ok send b = false := by simp [send_ok, hfail]
  refine ⟨notify_games_map_fst send _, ?_, ?_⟩
  · have hmem := notify_games_processes send b (pre ++ b :: post)
      (List.mem_append_right pre (List.mem_cons_self b post))
    rwa [hb] at hmem
  · intro g hg hok
    have hgt : send_ok send g = true := by simp [send_ok, hok]
    have hmem := notify_games_processes send g (pre ++ b :: post)
      (List.mem_append_right pre (List.mem_cons_of_mem b hg))
    rwa [hgt] at hmem

/-- Demo send effect: fails exactly on the record named B. -/
def sendDemo (g : Game) : Except Unit Unit :=
  if g.name = some "B" then Except.error () else Except.ok ()

/-- Witness for C9: with A before the failing B and C after it, the
whole batch is processed, B is recorded as failed and C as sent. -/
theorem send_failure_isolated_witness :
    (notify_games sendDemo ([gameA] ++ gameB :: [gameC])).map Prod.fst
        = [gameA] ++ gameB :: [gameC] ∧
    (gameB, false) ∈ notify_games sendDemo ([gameA] ++ gameB :: [gameC]) ∧
    ∀ g, g ∈ [gameC] → sendDemo g = Except.ok () →
      (g, true) ∈ notify_games sendDemo ([gameA] ++ gameB :: [gameC]) :=
  send_failure_isolated sendDemo [gameA] [gameC] gameB (by simp [sendDemo, gameB])
